import Mathlib

/-!
Verification development for the golfbook repository (three Python source
files: imessage_booker.py, midnight_book.py, tee_time_booker.py).

The development shallowly embeds, over lists of characters and explicit
environments:
  * parse_booking_request   (imessage_booker.py, lines 116-215)
  * get_latest_reply        (imessage_booker.py, lines 54-113)
  * prompt_for_booking      (imessage_booker.py, lines 218-276)
  * TeeTimeBooker.book_tee_time (tee_time_booker.py, lines 105-467) and the
    caller midnight_book.main (midnight_book.py, lines 18-55)

Strings are modelled as List Char with ASCII semantics for lowering,
whitespace and word characters (the source applies Python str.lower,
str.strip, str.split and the re module to the message text; the claims
are settled on ASCII inputs).  The specific regular expressions of the
source are embedded as dedicated scanners that reproduce the semantics of
re.search (leftmost match, greedy quantifiers with backtracking) for
exactly those patterns.
-/

deriving instance DecidableEq for Except

/-- ASCII lower-casing of one character (Python str.lower on ASCII). -/
def lowerC (c : Char) : Char :=
  if 65 ≤ c.toNat ∧ c.toNat ≤ 90 then Char.ofNat (c.toNat + 32) else c

/-- Whitespace characters recognised by Python str.strip / str.split / regex
whitespace on ASCII text: space, tab, newline, carriage return, vertical tab,
form feed. -/
def isSpaceC (c : Char) : Bool :=
  c.toNat = 32 || c.toNat = 9 || c.toNat = 10 || c.toNat = 13 ||
  c.toNat = 11 || c.toNat = 12

/-- ASCII decimal digit test (regex token for a digit). -/
def isDigitC (c : Char) : Bool := 48 ≤ c.toNat && c.toNat ≤ 57

/-- Numeric value of an ASCII digit character. -/
def digitVal (c : Char) : Nat := c.toNat - 48

/-- ASCII word character (letter, digit or underscore), the class used by
the regex word-boundary assertion. -/
def isWordC (c : Char) : Bool :=
  (48 ≤ c.toNat && c.toNat ≤ 57) || (97 ≤ c.toNat && c.toNat ≤ 122) ||
  (65 ≤ c.toNat && c.toNat ≤ 90) || c.toNat = 95

/-- Lower-case a whole string. -/
def toLowerL (l : List Char) : List Char := l.map lowerC

/-- Python str.strip: drop leading and trailing whitespace. -/
def stripL (l : List Char) : List Char :=
  ((l.dropWhile isSpaceC).reverse.dropWhile isSpaceC).reverse

/-- The normalisation applied first by parse_booking_request:
text.strip().lower(). -/
def normText (l : List Char) : List Char := toLowerL (stripL l)

/-- Boolean prefix test on character lists. -/
def isPrefixL : List Char → List Char → Bool
  | [], _ => true
  | _ :: _, [] => false
  | a :: as, b :: bs => a == b && isPrefixL as bs

/-- Python substring containment (the `in` operator on str). -/
def containsSub (needle : List Char) : List Char → Bool
  | [] => isPrefixL needle []
  | c :: rest => isPrefixL needle (c :: rest) || containsSub needle rest

/-- Helper for splitWs, accumulating the current token reversed. -/
def splitWsAux (cur : List Char) : List Char → List (List Char)
  | [] => if cur = [] then [] else [cur.reverse]
  | c :: rest =>
    if isSpaceC c then
      if cur = [] then splitWsAux [] rest else cur.reverse :: splitWsAux [] rest
    else splitWsAux (c :: cur) rest

/-- Python str.split() with no argument: split on whitespace runs, dropping
empty tokens. -/
def splitWs (l : List Char) : List (List Char) := splitWsAux [] l

/-- Calendar dates are modelled by an absolute day index (days since an
epoch that falls on a Monday) together with the calendar year of the date.
datetime.weekday() is day % 7 with 0 = Monday; adding a timedelta adds to
the day index.  The year field is only ever read for the current date
(today.year in the explicit M/D branch of the parser), never after a
shift, so addDays does not need to adjust it. -/
structure Date where
  day : Nat
  year : Nat
deriving DecidableEq

/-- datetime.weekday(): 0 = Monday .. 6 = Sunday. -/
def Date.weekday (d : Date) : Nat := d.day % 7

/-- today + timedelta(days = n). -/
def Date.addDays (d : Date) (n : Nat) : Date := ⟨d.day + n, d.year⟩

/-- Full lower-case weekday names in the order of the days_of_week list of
parse_booking_request (0 = monday). -/
def dayFull (i : Nat) : List Char :=
  (["monday", "tuesday", "wednesday", "thursday", "friday", "saturday",
    "sunday"].getD i "").toList

/-- Three-letter abbreviation day_name[:3]. -/
def dayAbbr (i : Nat) : List Char := (dayFull i).take 3

/-- The test of the day-of-week loop:
day_name in text or day_name[:3] in text.split(). -/
def namedDay (t : List Char) (i : Nat) : Bool :=
  containsSub (dayFull i) t || (splitWs t).any (fun tok => tok == dayAbbr i)

/-- First element of the list satisfying the test (the for-loop with break
over day indices). -/
def findFirstIdx (p : Nat → Bool) : List Nat → Option Nat
  | [] => none
  | i :: is => if p i then some i else findFirstIdx p is

/-- Index of the first day name contained in the text, following the loop
order monday .. sunday. -/
def firstNamedDay (t : List Char) : Option Nat :=
  findFirstIdx (namedDay t) [0, 1, 2, 3, 4, 5, 6]

/-- Greedy 1-or-2 digit scan for the regex token of one or two digits.  The
two-digit reading is preferred; backtracking to the one-digit reading is
only relevant when the following context rejects the longer reading, and
in every pattern of the source the context after the token is a
non-digit character, so the greedy choice is final. -/
def grab1or2 : List Char → Option (Nat × List Char)
  | [] => none
  | [c] => if isDigitC c then some (digitVal c, []) else none
  | c :: c2 :: rest =>
    if isDigitC c then
      if isDigitC c2 then some (10 * digitVal c + digitVal c2, rest)
      else some (digitVal c, c2 :: rest)
    else none

/-- Greedy 2-to-4 digit scan for the year group of the date pattern. -/
def grab2to4 : List Char → Option Nat
  | a :: b :: c :: d :: _ =>
    if isDigitC a && isDigitC b && isDigitC c && isDigitC d then
      some (1000 * digitVal a + 100 * digitVal b + 10 * digitVal c + digitVal d)
    else if isDigitC a && isDigitC b && isDigitC c then
      some (100 * digitVal a + 10 * digitVal b + digitVal c)
    else if isDigitC a && isDigitC b then
      some (10 * digitVal a + digitVal b)
    else none
  | [a, b, c] =>
    if isDigitC a && isDigitC b && isDigitC c then
      some (100 * digitVal a + 10 * digitVal b + digitVal c)
    else if isDigitC a && isDigitC b then
      some (10 * digitVal a + digitVal b)
    else none
  | [a, b] =>
    if isDigitC a && isDigitC b then some (10 * digitVal a + digitVal b)
    else none
  | _ => none

/-- Match of the explicit date pattern of one-or-two digits, slash,
one-or-two digits, and an optional slash plus two-to-four digit year,
anchored at the current position.  Returns (month, day, year?). -/
def mDateAt (l : List Char) : Option (Nat × Nat × Option Nat) :=
  match grab1or2 l with
  | none => none
  | some (mo, rest) =>
    match rest with
    | '/' :: rest2 =>
      match grab1or2 rest2 with
      | none => none
      | some (dy, rest3) =>
        match rest3 with
        | '/' :: rest4 =>
          match grab2to4 rest4 with
          | some y => some (mo, dy, some y)
          | none => some (mo, dy, none)
        | _ => some (mo, dy, none)
    | _ => none

/-- re.search for the explicit date pattern: leftmost position at which
mDateAt succeeds. -/
def searchDateTok : List Char → Option (Nat × Nat × Option Nat)
  | [] => none
  | c :: rest =>
    match mDateAt (c :: rest) with
    | some r => some r
    | none => searchDateTok rest

/-- The resolved date value of a parsed request: either an offset date
computed from today (the tomorrow / today / weekday / default branches,
which the source then formats with strftime) or an explicit
month / day / year from the date token branch. -/
inductive RDate where
  | offset (d : Date)
  | explicitD (month day year : Nat)
deriving DecidableEq

/-- Year defaulting of the explicit-date branch: a 2-digit year means
2000 + year, a missing year means the current year. -/
def resolveYear (oy : Option Nat) (today : Date) : Nat :=
  match oy with
  | some y => if y < 100 then y + 2000 else y
  | none => today.year

/-- The date-resolution phase of parse_booking_request (source lines
136-172): tomorrow, then today, then the weekday loop, then the explicit
date token, then the default of tomorrow. -/
def parseDate (t : List Char) (today : Date) : RDate :=
  if containsSub ("tomorrow".toList) t then RDate.offset (today.addDays 1)
  else if containsSub ("today".toList) t then RDate.offset today
  else
    match firstNamedDay t with
    | some i =>
      let ahead := (i + 7 - today.weekday) % 7
      RDate.offset (today.addDays (if ahead = 0 then 7 else ahead))
    | none =>
      match searchDateTok t with
      | some (mo, dy, oy) => RDate.explicitD mo dy (resolveYear oy today)
      | none => RDate.offset (today.addDays 1)

/-- Word boundary after a just-consumed word character: holds at end of
input or before a non-word character. -/
def wordBoundaryAfter : List Char → Bool
  | [] => true
  | c :: _ => !isWordC c

/-- The am / pm alternation followed by a word boundary.  Returns whether
the marker was pm. -/
def ampmTail : List Char → Option Bool
  | 'a' :: 'm' :: rest => if wordBoundaryAfter rest then some false else none
  | 'p' :: 'm' :: rest => if wordBoundaryAfter rest then some true else none
  | _ => none

/-- Whitespace run then the am / pm marker.  The whitespace star is
greedy; since the marker starts with a non-whitespace character the greedy
munch is final. -/
def contAmPm (l : List Char) : Option Bool := ampmTail (l.dropWhile isSpaceC)

/-- The 12-to-24-hour conversion of the source: pm adds 12 unless the hour
is 12, am turns hour 12 into 0. -/
def to24Hour (h m : Nat) (pm : Bool) : Nat × Nat :=
  if pm then (if h = 12 then (h, m) else (h + 12, m))
  else (if h = 12 then (0, m) else (h, m))

/-- 12-hour match continuation when the optional colon-minutes group is
absent: minutes default to 0. -/
def m12NoMin (h : Nat) (l : List Char) : Option (Nat × Nat) :=
  match contAmPm l with
  | some pm => some (to24Hour h 0 pm)
  | none => none

/-- 12-hour match continuation after the hour digits: try the optional
colon plus exactly-two-digit minutes group first (greedy option), falling
back to the group-absent reading. -/
def m12AfterHour (h : Nat) (l : List Char) : Option (Nat × Nat) :=
  match l with
  | ':' :: a :: b :: rest =>
    if isDigitC a && isDigitC b then
      match contAmPm rest with
      | some pm => some (to24Hour h (10 * digitVal a + digitVal b) pm)
      | none => m12NoMin h l
    else m12NoMin h l
  | _ => m12NoMin h l

/-- Match of the 12-hour time pattern (one-or-two digit hour, optional
colon minutes, optional whitespace, am or pm, word boundary) anchored at
the current position.  The hour token is greedy with backtracking from the
two-digit to the one-digit reading. -/
def m12At : List Char → Option (Nat × Nat)
  | [] => none
  | c :: rest =>
    if isDigitC c then
      match rest with
      | c2 :: rest2 =>
        if isDigitC c2 then
          match m12AfterHour (10 * digitVal c + digitVal c2) rest2 with
          | some r => some r
          | none => m12AfterHour (digitVal c) rest
        else m12AfterHour (digitVal c) rest
      | [] => m12AfterHour (digitVal c) []
    else none

/-- re.search for the 12-hour pattern: leftmost matching position. -/
def searchM12 : List Char → Option (Nat × Nat)
  | [] => none
  | c :: rest =>
    match m12At (c :: rest) with
    | some r => some r
    | none => searchM12 rest

/-- Minutes of the 24-hour pattern: exactly two digits followed by a word
boundary. -/
def m24Min (h : Nat) : List Char → Option (Nat × Nat)
  | a :: b :: rest =>
    if isDigitC a && isDigitC b && wordBoundaryAfter rest then
      some (h, 10 * digitVal a + digitVal b)
    else none
  | _ => none

/-- Match of the 24-hour pattern (word boundary, one-or-two digit hour,
colon, two digit minutes, word boundary) anchored at the current position;
the leading boundary is checked by the caller.  When two digits are
followed by a non-colon the one-digit backtrack also fails, since the
character after a single digit is then a digit, not a colon. -/
def m24At : List Char → Option (Nat × Nat)
  | c :: rest =>
    if isDigitC c then
      match rest with
      | c2 :: ':' :: r3 =>
        if isDigitC c2 then m24Min (10 * digitVal c + digitVal c2) r3 else none
      | ':' :: r2 => m24Min (digitVal c) r2
      | _ => none
    else none
  | [] => none

/-- Word boundary before a word character, given the previous character
(none at the start of the string). -/
def boundaryBeforeWord : Option Char → Bool
  | none => true
  | some p => !isWordC p

/-- re.search for the 24-hour pattern, scanning with the previous
character tracked for the leading word boundary. -/
def searchM24Aux (prev : Option Char) : List Char → Option (Nat × Nat)
  | [] => none
  | c :: rest =>
    match (if boundaryBeforeWord prev then m24At (c :: rest) else none) with
    | some r => some r
    | none => searchM24Aux (some c) rest

/-- re.search for the 24-hour pattern from the start of the string. -/
def searchM24 (l : List Char) : Option (Nat × Nat) := searchM24Aux none l

/-- The time-resolution phase of parse_booking_request (source lines
174-193) as an hour-minute pair: the 12-hour pattern first, else the
24-hour pattern accepted only when its hour is at most 23, else none. -/
def parseTimeHM (t : List Char) : Option (Nat × Nat) :=
  match searchM12 t with
  | some hm => some hm
  | none =>
    match searchM24 t with
    | some (h, m) => if h ≤ 23 then some (h, m) else none
    | none => none

/-- Python format f with 02d: decimal digits zero-padded to width two
(wider numbers keep all their digits). -/
def pad2 (n : Nat) : List Char :=
  if n < 10 then '0' :: Nat.toDigits 10 n else Nat.toDigits 10 n

/-- The formatted time string of the source. -/
def fmtTime (h m : Nat) : List Char := pad2 h ++ ':' :: pad2 m

/-- Match of the player-count pattern (a digit, optional whitespace, the
literal word player) anchored at the current position. -/
def mPlayerAt : List Char → Option Nat
  | [] => none
  | c :: rest =>
    if isDigitC c && isPrefixL ("player".toList) (rest.dropWhile isSpaceC) then
      some (digitVal c)
    else none

/-- re.search for the player-count pattern: leftmost match. -/
def searchPlayerDigit : List Char → Option Nat
  | [] => none
  | c :: rest =>
    match mPlayerAt (c :: rest) with
    | some d => some d
    | none => searchPlayerDigit rest

/-- re.search for a standalone digit 1-4 between word boundaries,
returning the digit and its position. -/
def searchStandalone14Aux (prev : Option Char) (pos : Nat) :
    List Char → Option (Nat × Nat)
  | [] => none
  | c :: rest =>
    if boundaryBeforeWord prev && (49 ≤ c.toNat && c.toNat ≤ 52) &&
        wordBoundaryAfter rest then
      some (digitVal c, pos)
    else searchStandalone14Aux (some c) (pos + 1) rest

/-- Standalone digit search from the start of the string. -/
def searchStandalone14 (l : List Char) : Option (Nat × Nat) :=
  searchStandalone14Aux none 0 l

/-- The surrounding-window check of the standalone-digit branch:
text[max(0, pos-2) : pos+3] must contain no colon, no slash and neither
am nor pm. -/
def windowClean (t : List Char) (pos : Nat) : Bool :=
  let surrounding := (t.drop (pos - 2)).take (pos + 3 - (pos - 2))
  !(surrounding.contains ':') && !(surrounding.contains '/') &&
  !(containsSub ("am".toList) surrounding) &&
  !(containsSub ("pm".toList) surrounding)

/-- The player-count phase of parse_booking_request (source lines
200-213): the digit-before-player pattern wins; else a standalone digit
1-4 with a clean surrounding window; else the initial value 1. -/
def parsePlayers (t : List Char) : Nat :=
  match searchPlayerDigit t with
  | some d => d
  | none =>
    match searchStandalone14 t with
    | some (d, pos) => if windowClean t pos then d else 1
    | none => 1

/-- The apostrophe character, used in one of the search keywords. -/
def apos : Char := Char.ofNat 39

/-- The fixed keyword set of the intent classification. -/
def searchKeywords : List (List Char) :=
  [("available".toList), ("what".toList ++ [apos] ++ ("s".toList)),
   ("whats".toList), ("search".toList), ("show".toList), ("list".toList),
   ("check".toList)]

/-- The structured booking request returned by parse_booking_request:
the dict with keys date, time, players, search_only. -/
structure BookingReq where
  date : RDate
  time : List Char
  players : Nat
  search_only : Bool
deriving DecidableEq

/-- parse_booking_request (imessage_booker.py lines 116-215): normalise
the text, classify intent by keyword containment, resolve the date, the
time (defaulting to 08:00 and forcing search_only when no time token is
accepted) and the player count. -/
def parse_booking_request (text : List Char) (today : Date) : BookingReq :=
  let t := normText text
  let isSearch := searchKeywords.any (fun kw => containsSub kw t)
  { date := parseDate t today
  , time :=
      match parseTimeHM t with
      | some (h, m) => fmtTime h m
      | none => fmtTime 8 0
  , players := parsePlayers t
  , search_only :=
      match parseTimeHM t with
      | some _ => isSearch
      | none => true }

/-- Modelled from the spec: a valid 24-hour time string, two digits, a
colon and two digits with hour at most 23 and minute at most 59.  This is
the spec-side notion used to compare the time field against the invariant
that the spec asserts for it. -/
def validTime24 (s : List Char) : Bool :=
  match s with
  | [h1, h2, c, m1, m2] =>
    c == ':' && isDigitC h1 && isDigitC h2 && isDigitC m1 && isDigitC m2 &&
    decide (10 * digitVal h1 + digitVal h2 ≤ 23) &&
    decide (10 * digitVal m1 + digitVal m2 ≤ 59)
  | _ => false

/-- One row of the Messages store as read by the query of
get_latest_reply: the text column (nullable), the date column (Apple-epoch
nanoseconds) and the chat identifier of the conversation. -/
structure Msg where
  text : Option (List Char)
  date : Int
  chat : List Char
deriving DecidableEq

/-- The Apple Core Data epoch offset in nanoseconds: 978307200 seconds. -/
def appleOffsetNs : Int := 978307200 * 1000000000

/-- Boolean suffix test on character lists. -/
def isSuffixL (a b : List Char) : Bool := isPrefixL a.reverse b.reverse

/-- SQLite LIKE with a leading percent wildcard: case-insensitive suffix
match (ASCII case folding, the SQLite default). -/
def likeSuffixCI (pat s : List Char) : Bool :=
  isSuffixL (toLowerL pat) (toLowerL s)

/-- SQLite LIKE with a trailing percent wildcard: case-insensitive prefix
match. -/
def likePrefixCI (pat s : List Char) : Bool :=
  isPrefixL (toLowerL pat) (toLowerL s)

/-- The engine prompt prefix excluded by the query:
m.text NOT LIKE the golf-booker prefix followed by a percent. -/
def golfBookerLit : List Char := "Golf booker".toList

/-- Phone normalisation of get_latest_reply: keep only digits, and the
last ten of them when at least ten are present. -/
def phoneDigits (phone : List Char) : List Char :=
  let ds := phone.filter isDigitC
  if 10 ≤ ds.length then ds.drop (ds.length - 10) else ds

/-- The WHERE clause of the query: date strictly after the converted
prompt time, chat identifier ending in the normalised digits, non-null
text, and text not starting with the engine prompt prefix. -/
def msgQualifies (digits : List Char) (appleTs : Int) (m : Msg) : Bool :=
  decide (appleTs < m.date) && likeSuffixCI digits m.chat &&
  m.text.isSome && !(likePrefixCI golfBookerLit (m.text.getD []))

/-- ORDER BY date DESC LIMIT 1: an element of maximal date (the first such
element when dates tie, matching an unspecified tie order). -/
def pickLatest : List Msg → Option Msg
  | [] => none
  | m :: rest =>
    match pickLatest rest with
    | none => some m
    | some m2 => if m.date < m2.date then some m2 else some m

/-- get_latest_reply (imessage_booker.py lines 54-113) over a snapshot of
the store: convert the prompt send time (Unix nanoseconds) to the Apple
epoch, filter with the WHERE clause, take the row of maximal date, and
return its stripped text when the raw text is non-empty.  The float
arithmetic of the source is modelled at exact nanosecond precision. -/
def get_latest_reply (store : List Msg) (phone : List Char) (sinceNs : Int) :
    Option (List Char) :=
  let appleTs := sinceNs - appleOffsetNs
  let digits := phoneDigits phone
  match pickLatest (store.filter (msgQualifies digits appleTs)) with
  | some m => if m.text.getD [] = [] then none else some (stripL (m.text.getD []))
  | none => none

/-- Observable sends and polls of the intake protocol prompt_for_booking. -/
inductive IAct where
  | sendPrompt
  | pollAt (k : Nat)
  | sendConfirm
  | sendTimeoutNotice
deriving DecidableEq

/-- Python exceptions that prompt_for_booking can raise: the ValueError of
the missing phone number, and the RuntimeError of a failed send. -/
inductive PyErr where
  | valueError
  | deliveryError
deriving DecidableEq

/-- Environment of one run of the intake protocol: the BOOKING_PHONE
environment variable (empty when unset, matching os.environ.get with an
empty default), the reply visible to the store read at poll number k
(abstracting get_latest_reply over the store as it evolves), whether each
send succeeds, and the current date used by the parser. -/
structure IntakeEnv where
  bookingPhoneEnv : List Char
  polls : Nat → Option (List Char)
  sendOk : IAct → Bool
  today : Date

/-- Number of loop iterations of the wait loop: polls happen at elapsed
times 0, interval, 2 interval, ... while the elapsed time is below the
timeout, so the iteration count is the ceiling of timeout / interval (the
source loops forever when the interval is zero; the theorems assume a
positive interval). -/
def numIters (interval timeout : Nat) : Nat := (timeout + interval - 1) / interval

/-- The wait loop: perform up to n polls starting at index k, stopping at
the first poll that returns a reply. -/
def pollLoopAux (polls : Nat → Option (List Char)) :
    Nat → Nat → List IAct × Option (List Char)
  | 0, _ => ([], none)
  | n + 1, k =>
    match polls k with
    | some r => ([IAct.pollAt k], some r)
    | none =>
      let rest := pollLoopAux polls n (k + 1)
      (IAct.pollAt k :: rest.1, rest.2)

/-- prompt_for_booking (imessage_booker.py lines 218-276): resolve the
phone number (argument, else environment, else raise ValueError), send the
prompt, poll until a reply or the deadline, then either parse the reply
and send a confirmation, or send a timeout notice and return none.  The
result is the trace of sends and polls together with the returned value or
the raised exception. -/
def prompt_for_booking (env : IntakeEnv) (phoneArg : List Char)
    (interval timeout : Nat) : List IAct × Except PyErr (Option BookingReq) :=
  let phone := if phoneArg = [] then env.bookingPhoneEnv else phoneArg
  if phone = [] then ([], Except.error PyErr.valueError)
  else if env.sendOk IAct.sendPrompt = false then
    ([], Except.error PyErr.deliveryError)
  else
    let r := pollLoopAux env.polls (numIters interval timeout) 0
    match r.2 with
    | some reply =>
      let booking := parse_booking_request reply env.today
      if env.sendOk IAct.sendConfirm then
        (IAct.sendPrompt :: r.1 ++ [IAct.sendConfirm], Except.ok (some booking))
      else (IAct.sendPrompt :: r.1, Except.error PyErr.deliveryError)
    | none =>
      if env.sendOk IAct.sendTimeoutNotice then
        (IAct.sendPrompt :: r.1 ++ [IAct.sendTimeoutNotice], Except.ok none)
      else (IAct.sendPrompt :: r.1, Except.error PyErr.deliveryError)

/-- Driver-level operations performed by book_tee_time, in the order the
source performs them.  Logging-only page inspections are folded into
inspectPage and inspectCartButtons; waits are omitted (they never branch).
Screenshot tags follow the file names of the source: 1, 2, 3 for the
search pages, 4 for the page after login, 5 and 6 for the re-search, 7
for member selection, 8 for booking_page_4, 9 for the confirmation, and 0
for booking_error.png taken in the exception handler. -/
inductive Act where
  | navigate
  | screenshot (tag : Nat)
  | inspectPage
  | setPlayersFilter
  | setDateFilter
  | setTimeFilter
  | clickSearch
  | inspectCartButtons
  | clickCartButton
  | clickCartFallback
  | fillUsername
  | fillPassword
  | clickLogin
  | clickContinueLogin
  | clickCartButton2
  | clickMemberContinue
  | clickFinalContinue
  | holdOpenForManual
  | browserClose
deriving DecidableEq

/-- Responses of the reservation page to the queries of one run of
book_tee_time: whether a result row reports availability, whether the
several element look-ups find their targets, and whether the
login-surface check fires. -/
structure SiteEnv where
  resultRowAvailable : Bool
  cartButtonFound : Bool
  loginPage : Bool
  usernameInputFound : Bool
  passInputFound : Bool
  loginBtnFound : Bool
  continueLoginFound : Bool
  cartButton2Found : Bool
  memberContinueFound : Bool
  finalContinueFound : Bool
deriving DecidableEq

/-- Step 1 and step 2 of book_tee_time (source lines 122-288): navigate,
first screenshot, debug inspection, the three filter applications (each
performed unconditionally, found or not), second screenshot, the search
click, third screenshot. -/
def initialSeg : List Act :=
  [Act.navigate, Act.screenshot 1, Act.inspectPage, Act.setPlayersFilter,
   Act.setDateFilter, Act.setTimeFilter, Act.screenshot 2, Act.clickSearch,
   Act.screenshot 3]

/-- Step 3 slot selection (source lines 291-345): only when a result row
reports availability, inspect the cart buttons and click the available
one, or fall back to the row-scoped click. -/
def slotSeg (env : SiteEnv) : List Act :=
  if env.resultRowAvailable then
    Act.inspectCartButtons ::
      (if env.cartButtonFound then [Act.clickCartButton] else [Act.clickCartFallback])
  else []

/-- The login branch (source lines 348-427): fill and submit credentials,
dismiss the active-session alert, screenshot, then navigate back to the
search page, re-apply the player and date filters, click search again,
screenshot, re-click an available cart button when one is found, and
screenshot again.  The time filter is not re-applied here. -/
def loginSeg (env : SiteEnv) : List Act :=
  if env.loginPage then
    (if env.usernameInputFound then [Act.fillUsername] else []) ++
    (if env.passInputFound then [Act.fillPassword] else []) ++
    (if env.loginBtnFound then [Act.clickLogin] else []) ++
    (if env.continueLoginFound then [Act.clickContinueLogin] else []) ++
    [Act.screenshot 4, Act.navigate, Act.setPlayersFilter, Act.setDateFilter,
     Act.clickSearch, Act.screenshot 5] ++
    (if env.cartButton2Found then [Act.clickCartButton2] else []) ++
    [Act.screenshot 6]
  else []

/-- The member-selection branch (source lines 430-436): click Continue
when the button is present, whether or not a login happened. -/
def memberSeg (env : SiteEnv) : List Act :=
  if env.memberContinueFound then [Act.clickMemberContinue, Act.screenshot 7]
  else []

/-- Step 4 (source lines 438-459): screenshot, then with auto_submit click
the final Continue when found and screenshot the confirmation, and
without auto_submit hold the browser open for manual completion. -/
def finalSeg (env : SiteEnv) (autoSubmit : Bool) : List Act :=
  Act.screenshot 8 ::
    (if autoSubmit then
      (if env.finalContinueFound then [Act.clickFinalContinue, Act.screenshot 9]
       else [])
     else [Act.holdOpenForManual])

/-- The full sequence of driver operations attempted by one run of
book_tee_time when nothing raises. -/
def attemptActs (env : SiteEnv) (autoSubmit : Bool) : List Act :=
  initialSeg ++ slotSeg env ++ loginSeg env ++ memberSeg env ++
    finalSeg env autoSubmit

/-- Execute a sequence of driver operations under a failure oracle: the
operations before the first failing one complete, the failing one raises
and nothing after it runs. -/
def runActs (failP : Act → Bool) : List Act → List Act × Option Act
  | [] => ([], none)
  | a :: rest =>
    if failP a then ([], some a)
    else
      let r := runActs failP rest
      (a :: r.1, r.2)

/-- book_tee_time (tee_time_booker.py lines 105-467): run the attempt; on
an exception the handler takes the booking_error screenshot and re-raises,
and the finally block closes the browser either way.  The source returns
no value on the non-raising path, so the result is ok-unit or the
propagated exception carrying the failed operation.  The handler
screenshot is modelled as succeeding. -/
def book_tee_time (env : SiteEnv) (autoSubmit : Bool) (failP : Act → Bool) :
    List Act × Except Act Unit :=
  let r := runActs failP (attemptActs env autoSubmit)
  match r.2 with
  | none => (r.1 ++ [Act.browserClose], Except.ok ())
  | some a => (r.1 ++ [Act.screenshot 0, Act.browserClose], Except.error a)

/-- What midnight_book.main reports after the booking attempt. -/
inductive RunReport where
  | noAvailabilityReported
  | failureLogged
deriving DecidableEq

/-- midnight_book.main (midnight_book.py lines 18-55) after the sleep:
call book_tee_time with auto_submit forced on; book_tee_time always
returns None, so a non-raising run logs no availability and sends the
no-availability result; a raising run is caught, the failure is logged,
and the result-sending block (which references the unbound variable) is
swallowed by the bare except. -/
def midnightMain (env : SiteEnv) (failP : Act → Bool) : RunReport :=
  match (book_tee_time env true failP).2 with
  | Except.ok _ => RunReport.noAvailabilityReported
  | Except.error _ => RunReport.failureLogged

/-- The failure oracle of a run in which no driver operation raises. -/
def noFail : Act → Bool := fun _ => false

/-- A failure oracle under which the initial navigation raises. -/
def failNav : Act → Bool := fun a => a == Act.navigate

/-- A page on which every probe finds its target: a result row is
available, the slot click redirects to login, login succeeds, and the
member and final Continue buttons exist. -/
def envAllFound : SiteEnv :=
  ⟨true, true, true, true, true, true, true, true, true, true⟩

/-- A page with no available result row and no login redirect, but on
which the member-selection and final-confirmation probes both find a
Continue button. -/
def envNoRow : SiteEnv :=
  ⟨false, false, false, false, false, false, false, false, true, true⟩

/-- Intake environment for witnesses: a phone number in the environment
variable, no reply ever, all sends succeeding. -/
def envIntake : IntakeEnv :=
  ⟨("5551234567".toList), fun _ => none, fun _ => true, ⟨0, 2026⟩⟩

/-- Intake environment with the BOOKING_PHONE variable unset (empty). -/
def envNoPhone : IntakeEnv :=
  ⟨[], fun _ => none, fun _ => true, ⟨0, 2026⟩⟩

/-- A one-message store for the reply-query witness: an inbound text
after the prompt, in the right conversation. -/
def storeW : List Msg :=
  [⟨some ("yes 2pm".toList), appleOffsetNs + 5, ("+15551234567".toList)⟩]

/-- Running the attempt under the never-failing oracle completes every
operation and raises nothing. -/
theorem runActs_noFail (l : List Act) : runActs noFail l = (l, none) := by
  induction l with
  | nil => rfl
  | cons a rest ih => simp [runActs, noFail, ih]

/-- If some operation of the attempt fails, the run stops with a raised
operation. -/
theorem runActs_fails (failP : Act → Bool) (l : List Act)
    (h : ∃ a ∈ l, failP a = true) : ∃ e, (runActs failP l).2 = some e := by
  induction l with
  | nil => simp at h
  | cons a rest ih =>
    cases hfa : failP a with
    | true => exact ⟨a, by simp [runActs, hfa]⟩
    | false =>
      obtain ⟨b, hb, hfb⟩ := h
      have hbr : b ∈ rest := by
        rcases List.mem_cons.mp hb with h1 | h1
        · subst h1; rw [hfa] at hfb; exact absurd hfb (by simp)
        · exact h1
      obtain ⟨e, he⟩ := ih ⟨b, hbr, hfb⟩
      exact ⟨e, by simp [runActs, hfa, he]⟩

/-- C1, counterexample: the claim says a driver-level failure is caught at
the book_tee_time boundary, converted to a Failed outcome, and does not
propagate as an exception to the caller.  On a run whose initial
navigation raises, book_tee_time takes the diagnostic screenshot and
closes the browser, but then re-raises: its result is the propagated
exception, not a returned Failed outcome, so the failure does cross the
book_tee_time boundary. -/
theorem C1_counterexample :
    book_tee_time envAllFound true failNav =
      ([Act.screenshot 0, Act.browserClose], Except.error Act.navigate) := by decide

/-- C1, amended: a driver-level failure anywhere in the attempt is caught
inside book_tee_time only long enough to take the booking_error diagnostic
screenshot and close the browser in the finally block; the exception is
then re-raised past book_tee_time, and it is the caller (midnight_book
main) that catches it and converts it into a logged failure outcome, so it
does not escape the run. -/
theorem C1_failure_contained (env : SiteEnv) (failP : Act → Bool)
    (h : ∃ a ∈ attemptActs env true, failP a = true) :
    (∃ e, (book_tee_time env true failP).2 = Except.error e) ∧
    (∃ pre, (book_tee_time env true failP).1 =
      pre ++ [Act.screenshot 0, Act.browserClose]) ∧
    midnightMain env failP = RunReport.failureLogged := by
  obtain ⟨e, he⟩ := runActs_fails failP (attemptActs env true) h
  refine ⟨⟨e, ?_⟩, ⟨(runActs failP (attemptActs env true)).1, ?_⟩, ?_⟩
  · simp [book_tee_time, he]
  · simp [book_tee_time, he]
  · simp [midnightMain, book_tee_time, he]

/-- C1, witness for the amended theorem at a run whose navigation fails. -/
theorem C1_witness :
    (∃ e, (book_tee_time envAllFound true failNav).2 = Except.error e) ∧
    (∃ pre, (book_tee_time envAllFound true failNav).1 =
      pre ++ [Act.screenshot 0, Act.browserClose]) ∧
    midnightMain envAllFound failNav = RunReport.failureLogged :=
  C1_failure_contained envAllFound failNav ⟨Act.navigate, by decide, by decide⟩

/-- C2, counterexample: the claim says that in a run with no available
result row no member-confirmation or final-submission step is performed.
On a page with no available row but with Continue controls present, the
run still clicks the member-selection Continue and the final Continue. -/
theorem C2_counterexample :
    envNoRow.resultRowAvailable = false ∧
    Act.clickMemberContinue ∈ (book_tee_time envNoRow true noFail).1 ∧
    Act.clickFinalContinue ∈ (book_tee_time envNoRow true noFail).1 := by decide

/-- C2, amended: when no search of the run reports availability and no
driver operation fails, the attempt terminates without an exception (the
caller reports no availability, never a failure) and no slot-selection
click is performed; the member-confirmation and final-submission probes,
however, still execute against whatever page is present. -/
theorem C2_no_availability (env : SiteEnv)
    (h1 : env.resultRowAvailable = false) (h2 : env.cartButton2Found = false) :
    (book_tee_time env true noFail).2 = Except.ok () ∧
    Act.clickCartButton ∉ (book_tee_time env true noFail).1 ∧
    Act.clickCartFallback ∉ (book_tee_time env true noFail).1 ∧
    Act.clickCartButton2 ∉ (book_tee_time env true noFail).1 ∧
    midnightMain env noFail = RunReport.noAvailabilityReported := by
  obtain ⟨ra, cb, lp, ui, pi2, lb, cl, c2, mc, fc⟩ := env
  revert ra cb lp ui pi2 lb cl c2 mc fc
  decide

/-- C2, witness for the amended theorem on the no-availability page. -/
theorem C2_witness :
    (book_tee_time envNoRow true noFail).2 = Except.ok () ∧
    Act.clickCartButton ∉ (book_tee_time envNoRow true noFail).1 ∧
    Act.clickCartFallback ∉ (book_tee_time envNoRow true noFail).1 ∧
    Act.clickCartButton2 ∉ (book_tee_time envNoRow true noFail).1 ∧
    midnightMain envNoRow noFail = RunReport.noAvailabilityReported :=
  C2_no_availability envNoRow rfl rfl

/-- C3, counterexample: the claim says the post-login re-search re-applies
all the filters that were applied initially, including the time filter.
On a run that goes through the login branch, the time filter is applied
exactly once (before login) and never re-applied afterwards. -/
theorem C3_counterexample :
    Act.clickLogin ∈ (book_tee_time envAllFound true noFail).1 ∧
    ((book_tee_time envAllFound true noFail).1.count Act.setTimeFilter) = 1 := by decide

/-- C3, amended: after the login branch the machine re-enters the search
from scratch: it navigates to the search page a second time, re-applies
the player-count and date filters and clicks search a second time, and
re-selects an available slot when one is present; the time filter, unlike
the other two, is applied only once and is not re-applied. -/
theorem C3_relogin (env : SiteEnv) (h : env.loginPage = true) :
    ((book_tee_time env true noFail).1.count Act.navigate = 2 ∧
     (book_tee_time env true noFail).1.count Act.setPlayersFilter = 2 ∧
     (book_tee_time env true noFail).1.count Act.setDateFilter = 2 ∧
     (book_tee_time env true noFail).1.count Act.clickSearch = 2 ∧
     (book_tee_time env true noFail).1.count Act.setTimeFilter = 1) ∧
    (env.cartButton2Found = true →
      Act.clickCartButton2 ∈ (book_tee_time env true noFail).1) := by
  obtain ⟨ra, cb, lp, ui, pi2, lb, cl, c2, mc, fc⟩ := env
  revert ra cb lp ui pi2 lb cl c2 mc fc
  decide

/-- C3, witness for the amended theorem on a run through the login
branch. -/
theorem C3_witness :
    ((book_tee_time envAllFound true noFail).1.count Act.navigate = 2 ∧
     (book_tee_time envAllFound true noFail).1.count Act.setPlayersFilter = 2 ∧
     (book_tee_time envAllFound true noFail).1.count Act.setDateFilter = 2 ∧
     (book_tee_time envAllFound true noFail).1.count Act.clickSearch = 2 ∧
     (book_tee_time envAllFound true noFail).1.count Act.setTimeFilter = 1) ∧
    (envAllFound.cartButton2Found = true →
      Act.clickCartButton2 ∈ (book_tee_time envAllFound true noFail).1) :=
  C3_relogin envAllFound rfl

/-- C10: with no phone argument (modelled as the empty string, which
covers both None and the empty string, since both are falsy) and the
BOOKING_PHONE variable unset or empty, prompt_for_booking raises
ValueError with an empty trace: no prompt is sent and no poll happens. -/
theorem C10_missing_phone (env : IntakeEnv) (interval timeout : Nat)
    (phoneArg : List Char) (h1 : phoneArg = []) (h2 : env.bookingPhoneEnv = []) :
    prompt_for_booking env phoneArg interval timeout =
      ([], Except.error PyErr.valueError) := by
  simp [prompt_for_booking, h1, h2]

/-- C10, witness at a concrete environment with the variable unset. -/
theorem C10_witness :
    prompt_for_booking envNoPhone [] 30 600 =
      ([], Except.error PyErr.valueError) :=
  C10_missing_phone envNoPhone 30 600 [] rfl rfl

/-- A recognised digit character has value at most 9. -/
theorem digitVal_le (c : Char) (h : isDigitC c = true) : digitVal c ≤ 9 := by
  simp [isDigitC] at h
  simp [digitVal]
  omega

/-- The 12-to-24-hour conversion keeps the hour at most 111 when the
matched hour token is at most 99. -/
theorem to24Hour_fst_le (h m : Nat) (pm : Bool) (hh : h ≤ 99) :
    (to24Hour h m pm).1 ≤ 111 := by
  unfold to24Hour
  split_ifs <;> simp <;> omega

/-- The 12-to-24-hour conversion leaves the minutes unchanged. -/
theorem to24Hour_snd (h m : Nat) (pm : Bool) : (to24Hour h m pm).2 = m := by
  unfold to24Hour
  split_ifs <;> rfl

/-- Bounds of the group-absent 12-hour continuation. -/
theorem m12NoMin_bound (h : Nat) (l : List Char) (h2 m2 : Nat) (hh : h ≤ 99)
    (he : m12NoMin h l = some (h2, m2)) : h2 ≤ 111 ∧ m2 ≤ 99 := by
  unfold m12NoMin at he
  cases hc : contAmPm l with
  | none => rw [hc] at he; exact absurd he (by simp)
  | some pm =>
    rw [hc] at he
    simp only [Option.some.injEq] at he
    have h1 := to24Hour_fst_le h 0 pm hh
    have h2' := to24Hour_snd h 0 pm
    rw [he] at h1 h2'
    simp at h1 h2'
    omega

/-- Bounds of the 12-hour continuation after the hour digits. -/
theorem m12AfterHour_bound (h : Nat) (l : List Char) (h2 m2 : Nat) (hh : h ≤ 99)
    (he : m12AfterHour h l = some (h2, m2)) : h2 ≤ 111 ∧ m2 ≤ 99 := by
  unfold m12AfterHour at he
  split at he
  case _ a b rest =>
    split_ifs at he with hd
    · cases hc : contAmPm rest with
      | none => rw [hc] at he; exact m12NoMin_bound h _ h2 m2 hh he
      | some pm =>
        rw [hc] at he
        simp only [Option.some.injEq] at he
        simp only [Bool.and_eq_true] at hd
        have ha := digitVal_le a hd.1
        have hb := digitVal_le b hd.2
        have hmle : 10 * digitVal a + digitVal b ≤ 99 := by omega
        have h1 := to24Hour_fst_le h (10 * digitVal a + digitVal b) pm hh
        have h2' := to24Hour_snd h (10 * digitVal a + digitVal b) pm
        rw [he] at h1 h2'
        simp at h1 h2'
        omega
    · exact m12NoMin_bound h _ h2 m2 hh he
  case _ =>
    exact m12NoMin_bound h _ h2 m2 hh he

/-- Bounds of a 12-hour match at a position. -/
theorem m12At_bound (l : List Char) (h2 m2 : Nat)
    (he : m12At l = some (h2, m2)) : h2 ≤ 111 ∧ m2 ≤ 99 := by
  cases l with
  | nil => exact absurd he (by simp [m12At])
  | cons c rest =>
    simp only [m12At] at he
    split_ifs at he with hc
    · have hc9 := digitVal_le c hc
      cases rest with
      | nil => exact m12AfterHour_bound _ _ _ _ (by omega) he
      | cons c2 rest2 =>
        simp only at he
        split_ifs at he with hc2
        · have hc29 := digitVal_le c2 hc2
          cases h2d : m12AfterHour (10 * digitVal c + digitVal c2) rest2 with
          | some r =>
            rw [h2d] at he
            simp only [Option.some.injEq] at he
            subst he
            exact m12AfterHour_bound _ _ _ _ (by omega) h2d
          | none =>
            rw [h2d] at he
            exact m12AfterHour_bound _ _ _ _ (by omega) he
        · exact m12AfterHour_bound _ _ _ _ (by omega) he

/-- Bounds of the 12-hour search. -/
theorem searchM12_bound (l : List Char) (h2 m2 : Nat)
    (he : searchM12 l = some (h2, m2)) : h2 ≤ 111 ∧ m2 ≤ 99 := by
  induction l with
  | nil => exact absurd he (by simp [searchM12])
  | cons c rest ih =>
    unfold searchM12 at he
    cases hm : m12At (c :: rest) with
    | some r =>
      rw [hm] at he
      simp only [Option.some.injEq] at he
      subst he
      exact m12At_bound _ _ _ hm
    | none => rw [hm] at he; exact ih he

/-- The 24-hour minute scan returns the passed hour and a two-digit
minute. -/
theorem m24Min_spec (h : Nat) (l : List Char) (h2 m2 : Nat)
    (he : m24Min h l = some (h2, m2)) : h2 = h ∧ m2 ≤ 99 := by
  cases l with
  | nil => exact absurd he (by simp [m24Min])
  | cons a rest =>
    cases rest with
    | nil => exact absurd he (by simp [m24Min])
    | cons b rest2 =>
      simp only [m24Min] at he
      split_ifs at he with hd
      simp only [Option.some.injEq, Prod.mk.injEq] at he
      simp only [Bool.and_eq_true] at hd
      have ha := digitVal_le a hd.1.1
      have hb := digitVal_le b hd.1.2
      exact ⟨he.1.symm, by omega⟩

/-- A 24-hour match has a two-digit minute value. -/
theorem m24At_minBound (l : List Char) (h2 m2 : Nat)
    (he : m24At l = some (h2, m2)) : m2 ≤ 99 := by
  cases l with
  | nil => exact absurd he (by simp [m24At])
  | cons c rest =>
    simp only [m24At] at he
    split_ifs at he with hc
    split at he
    case _ c2 r3 =>
      split_ifs at he with hc2
      exact (m24Min_spec _ _ _ _ he).2
    case _ r2 =>
      exact (m24Min_spec _ _ _ _ he).2
    case _ =>
      exact absurd he (by simp)

/-- The 24-hour search has a two-digit minute value. -/
theorem searchM24Aux_minBound (l : List Char) (prev : Option Char) (h2 m2 : Nat)
    (he : searchM24Aux prev l = some (h2, m2)) : m2 ≤ 99 := by
  induction l generalizing prev with
  | nil => exact absurd he (by simp [searchM24Aux])
  | cons c rest ih =>
    unfold searchM24Aux at he
    split at he
    case _ r heq =>
      simp only [Option.some.injEq] at he
      subst he
      split_ifs at heq with hb
      exact m24At_minBound _ _ _ heq
    case _ =>
      exact ih _ he

/-- Bounds of the accepted hour-minute pair of the time phase: the hour
never exceeds 111 and the minute never exceeds 99. -/
theorem parseTimeHM_bound (t : List Char) (h2 m2 : Nat)
    (he : parseTimeHM t = some (h2, m2)) : h2 ≤ 111 ∧ m2 ≤ 99 := by
  unfold parseTimeHM at he
  cases h12 : searchM12 t with
  | some hm =>
    rw [h12] at he
    simp only [Option.some.injEq] at he
    subst he
    exact searchM12_bound _ _ _ h12
  | none =>
    rw [h12] at he
    cases h24 : searchM24 t with
    | none => rw [h24] at he; exact absurd he (by simp)
    | some hm =>
      obtain ⟨h, m⟩ := hm
      rw [h24] at he
      simp only at he
      split_ifs at he with hle
      simp only [Option.some.injEq, Prod.mk.injEq] at he
      obtain ⟨he1, he2⟩ := he
      subst he1
      subst he2
      exact ⟨by omega, searchM24Aux_minBound _ _ _ _ h24⟩

/-- The digit-before-player pattern yields a single-digit count. -/
theorem searchPlayerDigit_le (l : List Char) (d : Nat)
    (he : searchPlayerDigit l = some d) : d ≤ 9 := by
  induction l with
  | nil => exact absurd he (by simp [searchPlayerDigit])
  | cons c rest ih =>
    unfold searchPlayerDigit at he
    cases hm : mPlayerAt (c :: rest) with
    | some d2 =>
      rw [hm] at he
      simp only [Option.some.injEq] at he
      subst he
      simp only [mPlayerAt] at hm
      split_ifs at hm with hc
      simp only [Option.some.injEq] at hm
      simp only [Bool.and_eq_true] at hc
      rw [← hm]
      exact digitVal_le c hc.1
    | none => rw [hm] at he; exact ih he

/-- The standalone-digit pattern yields a digit between 1 and 4. -/
theorem searchStandalone14Aux_range (l : List Char) (prev : Option Char)
    (pos0 : Nat) (d pos : Nat)
    (he : searchStandalone14Aux prev pos0 l = some (d, pos)) :
    1 ≤ d ∧ d ≤ 4 := by
  induction l generalizing prev pos0 with
  | nil => exact absurd he (by simp [searchStandalone14Aux])
  | cons c rest ih =>
    unfold searchStandalone14Aux at he
    split_ifs at he with hc
    · simp only [Option.some.injEq, Prod.mk.injEq] at he
      simp only [Bool.and_eq_true, decide_eq_true_eq] at hc
      obtain ⟨⟨_, hr⟩, _⟩ := hc
      obtain ⟨hd, _⟩ := he
      subst hd
      simp only [digitVal]
      omega
    · exact ih _ _ he

/-- C4, counterexample: the claim says the players field is always in the
range one to four.  The message of nine players parses to nine, because
the digit-before-player pattern accepts any digit. -/
theorem C4_counterexample :
    (parse_booking_request ("9 players".toList) ⟨0, 2026⟩).players = 9 ∧
    ¬(1 ≤ (parse_booking_request ("9 players".toList) ⟨0, 2026⟩).players ∧
      (parse_booking_request ("9 players".toList) ⟨0, 2026⟩).players ≤ 4) := by decide

/-- C4, amended: the players field is always a single digit (at most 9,
default 1); it is guaranteed to lie in the range one to four exactly when
the digit-before-player pattern does not fire, that is, when the count
comes from the standalone-digit rule or from the default. -/
theorem C4_players_range (text : List Char) (today : Date) :
    (parse_booking_request text today).players ≤ 9 ∧
    (searchPlayerDigit (normText text) = none →
      1 ≤ (parse_booking_request text today).players ∧
      (parse_booking_request text today).players ≤ 4) := by
  have hp : (parse_booking_request text today).players =
      parsePlayers (normText text) := by
    simp [parse_booking_request]
  rw [hp]
  unfold parsePlayers
  split
  next d h1 =>
    refine ⟨searchPlayerDigit_le _ _ h1, ?_⟩
    intro hcontra
    rw [h1] at hcontra
    exact absurd hcontra (by simp)
  next h1 =>
    split
    next d pos h2 =>
      obtain ⟨hd1, hd4⟩ :=
        searchStandalone14Aux_range (normText text) none 0 d pos h2
      refine ⟨?_, fun _ => ⟨?_, ?_⟩⟩ <;> split_ifs <;> omega
    next h2 => exact ⟨by omega, fun _ => by omega⟩

/-- C4, witness for the amended theorem on a message whose count comes
from the standalone-digit rule. -/
theorem C4_witness :
    (parse_booking_request ("book sat 2pm for 3".toList) ⟨0, 2026⟩).players ≤ 9 ∧
    (searchPlayerDigit (normText ("book sat 2pm for 3".toList)) = none →
      1 ≤ (parse_booking_request ("book sat 2pm for 3".toList) ⟨0, 2026⟩).players ∧
      (parse_booking_request ("book sat 2pm for 3".toList) ⟨0, 2026⟩).players ≤ 4) :=
  C4_players_range ("book sat 2pm for 3".toList) ⟨0, 2026⟩

/-- C5, counterexample: the claim says the time field is always a valid
24-hour HH:MM value.  The message 13pm matches the 12-hour pattern with
hour 13, the conversion adds 12, and the time field becomes 25:00, whose
hour exceeds 23. -/
theorem C5_counterexample :
    (parse_booking_request ("13pm".toList) ⟨0, 2026⟩).time = ("25:00".toList) ∧
    validTime24 ((parse_booking_request ("13pm".toList) ⟨0, 2026⟩).time) = false := by
  decide

/-- C5, amended: the time field always has the digits-colon-digits shape
produced by the two-digit-padded format, with hour at most 111 and minute
at most 99; it is a valid 24-hour value only when the matched token is
itself in range (out-of-range 12-hour tokens such as 13pm, or two-digit
minute tokens above 59, are converted without validation). -/
theorem C5_time_shape (text : List Char) (today : Date) :
    ∃ h m, h ≤ 111 ∧ m ≤ 99 ∧
      (parse_booking_request text today).time = fmtTime h m := by
  cases he : parseTimeHM (normText text) with
  | some hm =>
    obtain ⟨h, m⟩ := hm
    obtain ⟨hb, mb⟩ := parseTimeHM_bound _ _ _ he
    exact ⟨h, m, hb, mb, by simp [parse_booking_request, he]⟩
  | none =>
    exact ⟨8, 0, by omega, by omega, by simp [parse_booking_request, he]⟩

/-- C7: when neither the 12-hour pattern nor the 24-hour pattern matches
the normalised text, the time field is the default 08:00 and search_only
is forced true, whatever the keyword classification said. -/
theorem C7_no_time (text : List Char) (today : Date)
    (h12 : searchM12 (normText text) = none)
    (h24 : searchM24 (normText text) = none) :
    (parse_booking_request text today).time = ("08:00".toList) ∧
    (parse_booking_request text today).search_only = true := by
  have ht : parseTimeHM (normText text) = none := by
    unfold parseTimeHM
    rw [h12, h24]
  constructor
  · simp only [parse_booking_request, ht]
    decide
  · simp [parse_booking_request, ht]

/-- C7, witness on a message with no time token. -/
theorem C7_witness :
    (parse_booking_request ("book tomorrow please".toList) ⟨0, 2026⟩).time =
      ("08:00".toList) ∧
    (parse_booking_request ("book tomorrow please".toList) ⟨0, 2026⟩).search_only =
      true :=
  C7_no_time ("book tomorrow please".toList) ⟨0, 2026⟩ (by decide) (by decide)

/-- The for-loop over the seven weekday indices finds w when w holds and
nothing before it does. -/
theorem findFirstIdx_seven (p : Nat → Bool) (w : Nat) (hw7 : w < 7)
    (hw : p w = true) (hj : ∀ j, j < w → p j = false) :
    findFirstIdx p [0, 1, 2, 3, 4, 5, 6] = some w := by
  interval_cases w <;> simp_all [findFirstIdx]

/-- C8, counterexample: the claim quantifies over every message naming
the current weekday, but a message that also contains the literal word
today resolves through the today branch, which takes priority over the
weekday loop: on a Monday, the message of today monday names the current
weekday yet resolves to today itself, zero days out, not seven. -/
theorem C8_counterexample :
    namedDay (normText ("today monday".toList)) (Date.weekday ⟨0, 2026⟩) = true ∧
    (parse_booking_request ("today monday".toList) ⟨0, 2026⟩).date =
      RDate.offset ⟨0, 2026⟩ ∧
    RDate.offset (⟨0, 2026⟩ : Date) ≠
      RDate.offset (Date.addDays ⟨0, 2026⟩ 7) := by decide

/-- C8, amended: for a message that names the current weekday, contains
neither tomorrow nor today, and names no weekday earlier in the
monday-first loop order, the resolved date is exactly seven days after
now, never zero. -/
theorem C8_same_weekday (text : List Char) (today : Date)
    (h1 : containsSub ("tomorrow".toList) (normText text) = false)
    (h2 : containsSub ("today".toList) (normText text) = false)
    (h3 : namedDay (normText text) today.weekday = true)
    (h4 : ∀ j, j < today.weekday → namedDay (normText text) j = false) :
    (parse_booking_request text today).date = RDate.offset (today.addDays 7) := by
  have hw7 : today.weekday < 7 := Nat.mod_lt _ (by omega)
  have hfd : firstNamedDay (normText text) = some today.weekday :=
    findFirstIdx_seven _ _ hw7 h3 h4
  have hdate : (parse_booking_request text today).date =
      parseDate (normText text) today := by
    simp [parse_booking_request]
  rw [hdate]
  unfold parseDate
  rw [h1, h2, hfd]
  have ha : (today.weekday + 7 - today.weekday) % 7 = 0 := by omega
  simp [ha]

/-- C8, witness: a message naming only the current weekday, on a Monday. -/
theorem C8_witness :
    (parse_booking_request ("monday golf".toList) ⟨0, 2026⟩).date =
      RDate.offset (Date.addDays ⟨0, 2026⟩ 7) :=
  C8_same_weekday ("monday golf".toList) ⟨0, 2026⟩ (by decide) (by decide)
    (by decide)
    (by intro j hj; simp only [Date.weekday] at hj; omega)

/-- The maximal-date pick returns none only on the empty row set. -/
theorem pickLatest_none (l : List Msg) (h : pickLatest l = none) : l = [] := by
  cases l with
  | nil => rfl
  | cons a rest =>
    unfold pickLatest at h
    split at h
    next => exact absurd h (by simp)
    next m2 hp => split_ifs at h

/-- The maximal-date pick returns a member of the row set whose date is at
least every other date. -/
theorem pickLatest_spec (l : List Msg) (m : Msg) (h : pickLatest l = some m) :
    m ∈ l ∧ ∀ m2 ∈ l, m2.date ≤ m.date := by
  induction l generalizing m with
  | nil => exact absurd h (by simp [pickLatest])
  | cons a rest ih =>
    unfold pickLatest at h
    split at h
    next hp =>
      simp only [Option.some.injEq] at h
      subst h
      have hr : rest = [] := pickLatest_none rest hp
      subst hr
      refine ⟨List.mem_cons_self _ _, ?_⟩
      intro m2 hm2
      rcases List.mem_cons.mp hm2 with h2 | h2
      · subst h2; exact le_rfl
      · exact absurd h2 (by simp)
    next mr hp =>
      obtain ⟨hmem, hmax⟩ := ih mr hp
      split_ifs at h with hlt
      · simp only [Option.some.injEq] at h
        subst h
        refine ⟨List.mem_cons_of_mem _ hmem, ?_⟩
        intro m2 hm2
        rcases List.mem_cons.mp hm2 with h2 | h2
        · subst h2; omega
        · exact hmax m2 h2
      · simp only [Option.some.injEq] at h
        subst h
        refine ⟨List.mem_cons_self _ _, ?_⟩
        intro m2 hm2
        rcases List.mem_cons.mp hm2 with h2 | h2
        · subst h2; exact le_rfl
        · have := hmax m2 h2
          omega

/-- Lower-casing both sides preserves a prefix relation. -/
theorem isPrefixL_map_lower (a b : List Char) (h : isPrefixL a b = true) :
    isPrefixL (toLowerL a) (toLowerL b) = true := by
  induction a generalizing b with
  | nil => rfl
  | cons c cs ih =>
    cases b with
    | nil => exact absurd h (by simp [isPrefixL])
    | cons d ds =>
      simp only [isPrefixL, Bool.and_eq_true, beq_iff_eq] at h
      obtain ⟨hcd, hrest⟩ := h
      subst hcd
      simp only [toLowerL, List.map_cons, isPrefixL, Bool.and_eq_true, beq_iff_eq]
      exact ⟨trivial, by simpa [toLowerL] using ih ds hrest⟩

/-- C6: whenever the reply query returns a text, that text is the
stripped text of a stored message which satisfies the full WHERE clause,
whose timestamp is strictly after the converted prompt send time (so a
message at or before the prompt is never returned), whose raw text does
not begin with the engine prompt prefix (so the prompt echo is never
returned), and whose date is at least the date of every other qualifying
candidate (so the most recent qualifying message is the one returned). -/
theorem C6_latest_reply (store : List Msg) (phone : List Char) (sinceNs : Int)
    (r : List Char) (h : get_latest_reply store phone sinceNs = some r) :
    ∃ m, m ∈ store ∧
      msgQualifies (phoneDigits phone) (sinceNs - appleOffsetNs) m = true ∧
      r = stripL (m.text.getD []) ∧
      sinceNs - appleOffsetNs < m.date ∧
      isPrefixL golfBookerLit (m.text.getD []) = false ∧
      ∀ m2 ∈ store,
        msgQualifies (phoneDigits phone) (sinceNs - appleOffsetNs) m2 = true →
          m2.date ≤ m.date := by
  simp only [get_latest_reply] at h
  split at h
  next m hp =>
    split_ifs at h with hemp
    simp only [Option.some.injEq] at h
    obtain ⟨hmemF, hmax⟩ := pickLatest_spec _ _ hp
    rw [List.mem_filter] at hmemF
    obtain ⟨hmem, hq⟩ := hmemF
    refine ⟨m, hmem, hq, h.symm, ?_, ?_, ?_⟩
    · have hq2 := hq
      simp only [msgQualifies, Bool.and_eq_true, decide_eq_true_eq] at hq2
      exact hq2.1.1.1
    · have hq2 := hq
      simp only [msgQualifies, Bool.and_eq_true, Bool.not_eq_true'] at hq2
      have hci : likePrefixCI golfBookerLit (m.text.getD []) = false := hq2.2
      cases hx : isPrefixL golfBookerLit (m.text.getD []) with
      | false => rfl
      | true =>
        have hmap := isPrefixL_map_lower _ _ hx
        rw [likePrefixCI] at hci
        rw [hmap] at hci
        exact absurd hci (by simp)
    · intro m2 hm2 hq2
      exact hmax m2 (List.mem_filter.mpr ⟨hm2, hq2⟩)
  next hp => exact absurd h (by simp)

/-- C6, witness on a one-message store with a reply after the prompt. -/
theorem C6_witness :
    ∃ m, m ∈ storeW ∧
      msgQualifies (phoneDigits ("+1 (555) 123-4567".toList))
        (appleOffsetNs - appleOffsetNs) m = true ∧
      ("yes 2pm".toList) = stripL (m.text.getD []) ∧
      appleOffsetNs - appleOffsetNs < m.date ∧
      isPrefixL golfBookerLit (m.text.getD []) = false ∧
      ∀ m2 ∈ storeW,
        msgQualifies (phoneDigits ("+1 (555) 123-4567".toList))
          (appleOffsetNs - appleOffsetNs) m2 = true →
          m2.date ≤ m.date :=
  C6_latest_reply storeW ("+1 (555) 123-4567".toList) appleOffsetNs
    ("yes 2pm".toList) (by decide)

/-- When no poll of the window sees a reply, the wait loop returns no
reply. -/
theorem pollLoopAux_none (polls : Nat → Option (List Char)) (n s : Nat)
    (h : ∀ j, j < n → polls (s + j) = none) :
    (pollLoopAux polls n s).2 = none := by
  induction n generalizing s with
  | zero => rfl
  | succ n ih =>
    have h0 : polls s = none := by simpa using h 0 (Nat.succ_pos n)
    unfold pollLoopAux
    rw [h0]
    exact ih (s + 1) (fun j hj => by
      have hx := h (j + 1) (by omega)
      rwa [show s + (j + 1) = s + 1 + j by omega] at hx)

/-- An iteration index below the iteration count corresponds to an
elapsed time below the timeout. -/
theorem mul_lt_of_lt_numIters (k interval timeout : Nat) (hI : 0 < interval)
    (hk : k < numIters interval timeout) : k * interval < timeout := by
  unfold numIters at hk
  have h1 : (k + 1) * interval ≤ ((timeout + interval - 1) / interval) * interval :=
    Nat.mul_le_mul_right interval hk
  have h2 : ((timeout + interval - 1) / interval) * interval ≤ timeout + interval - 1 :=
    Nat.div_mul_le_self _ _
  have h3 : k * interval + interval ≤ timeout + interval - 1 := by
    calc k * interval + interval = (k + 1) * interval := by ring
    _ ≤ ((timeout + interval - 1) / interval) * interval := h1
    _ ≤ timeout + interval - 1 := h2
  revert h3
  generalize k * interval = a
  intro h3
  omega

/-- C9: when no qualifying reply is visible at any poll within the
timeout bound and the two sends succeed, prompt_for_booking sends the
timeout notice and returns the Timeout outcome none, raising nothing. -/
theorem C9_timeout (env : IntakeEnv) (phoneArg : List Char)
    (interval timeout : Nat) (hI : 0 < interval)
    (hphone : (if phoneArg = [] then env.bookingPhoneEnv else phoneArg) ≠ [])
    (hp : env.sendOk IAct.sendPrompt = true)
    (hn : env.sendOk IAct.sendTimeoutNotice = true)
    (hpolls : ∀ k, k * interval < timeout → env.polls k = none) :
    prompt_for_booking env phoneArg interval timeout =
      (IAct.sendPrompt ::
        (pollLoopAux env.polls (numIters interval timeout) 0).1 ++
        [IAct.sendTimeoutNotice], Except.ok none) ∧
    IAct.sendTimeoutNotice ∈ (prompt_for_booking env phoneArg interval timeout).1 := by
  have hres : (pollLoopAux env.polls (numIters interval timeout) 0).2 = none :=
    pollLoopAux_none _ _ 0 (fun j hj => by
      have hx := hpolls j
        (mul_lt_of_lt_numIters j interval timeout hI (by simpa using hj))
      simpa using hx)
  have hmain : prompt_for_booking env phoneArg interval timeout =
      (IAct.sendPrompt ::
        (pollLoopAux env.polls (numIters interval timeout) 0).1 ++
        [IAct.sendTimeoutNotice], Except.ok none) := by
    simp only [prompt_for_booking]
    rw [if_neg hphone]
    simp [hp, hres, hn]
  exact ⟨hmain, by rw [hmain]; simp⟩

/-- C9, witness: a run with a configured phone, all sends succeeding and
no reply ever visible. -/
theorem C9_witness :
    prompt_for_booking envIntake [] 30 600 =
      (IAct.sendPrompt ::
        (pollLoopAux envIntake.polls (numIters 30 600) 0).1 ++
        [IAct.sendTimeoutNotice], Except.ok none) ∧
    IAct.sendTimeoutNotice ∈ (prompt_for_booking envIntake [] 30 600).1 :=
  C9_timeout envIntake [] 30 600 (by omega) (by decide) rfl rfl (fun k _ => rfl)
